import Mathlib

/-!
Shallow embedding of the request-execution core of the coda-ts-sdk
repository: the response cache (src/client/cache.ts), the metrics
collector (src/client/metrics.ts), the rate limiter
(src/client/rateLimiter.ts), the request/retry engine and mutation
poller (src/client/codaClient.ts), and the pagination helper
(src/helpers).  Times and durations are in milliseconds, modelled as
Nat; response-time statistics use Rat exactly where the source uses
JavaScript numbers.
-/

namespace Coda

/-! ## JavaScript primitives used by the source -/

/-- JS `x || d` for an optional number: `undefined` and `0` (falsy) fall
back to the default. -/
def jsOrNat (o : Option Nat) (d : Nat) : Nat :=
  match o with
  | none => d
  | some n => if n = 0 then d else n

/-- JS `x || d` for an optional string: `undefined` and the empty string
(falsy) fall back to the default. -/
def jsOrStr (o : Option String) (d : String) : String :=
  match o with
  | none => d
  | some s => if s = "" then d else s

/-- Decimal-digit prefix of a character list. -/
def leadDigits : List Char → List Char :=
  List.takeWhile Char.isDigit

/-- JS `parseInt(s)` restricted to the non-negative decimal inputs the
source can receive from an HTTP header: the maximal leading run of
decimal digits is the value; a string with no leading digit is NaN,
modelled as `none`. -/
def jsParseInt (s : String) : Option Nat :=
  let ds := leadDigits s.toList
  if ds.isEmpty then none
  else some (ds.foldl (fun acc c => acc * 10 + (c.toNat - 48)) 0)

/-- The pattern is a prefix of the character list. -/
def charsStartWith : List Char → List Char → Bool
  | [], _ => true
  | _ :: _, [] => false
  | p :: ps, c :: cs => p = c && charsStartWith ps cs

/-- The pattern occurs contiguously in the character list. -/
def charsContain (pat : List Char) : List Char → Bool
  | [] => pat.isEmpty
  | c :: s => charsStartWith pat (c :: s) || charsContain pat s

/-- JS `String.prototype.includes(pat)`: the pattern occurs as a
contiguous substring. -/
def strIncludes (s pat : String) : Bool :=
  charsContain pat.toList s.toList

/-! ## Response cache — `ApiCache` (src/client/cache.ts)

The JS class keeps a `Map<string, CacheEntry<any>>` plus hit and miss
counters.  The map is modelled as an association list keyed by the
cache key; `Map.set` overwrites, `Map.delete` removes. -/

structure CacheEntry (T : Type) where
  data : T
  timestamp : Nat
  ttl : Nat
  deriving Repr, DecidableEq

structure ApiCache (T : Type) where
  cache : List (String × CacheEntry T)
  hits : Nat
  misses : Nat
  defaultTtl : Nat
  deriving Repr, DecidableEq

/-- `new ApiCache(defaultTtl)`; the TS default parameter 300000 (5 min)
applies when the argument is `undefined`. -/
def ApiCache.init (T : Type) (defaultTtl : Option Nat) : ApiCache T :=
  { cache := [], hits := 0, misses := 0, defaultTtl := defaultTtl.getD 300000 }

/-- `Map.get`. -/
def mapGet {T : Type} (m : List (String × CacheEntry T)) (k : String) :
    Option (CacheEntry T) :=
  (m.find? (fun p => p.1 = k)).map Prod.snd

/-- `Map.delete` (the removal; the boolean result is separate). -/
def mapDelete {T : Type} (m : List (String × CacheEntry T)) (k : String) :
    List (String × CacheEntry T) :=
  m.filter (fun p => p.1 ≠ k)

/-- `Map.set`: overwrite any existing binding for the key. -/
def mapSet {T : Type} (m : List (String × CacheEntry T)) (k : String)
    (e : CacheEntry T) : List (String × CacheEntry T) :=
  if (m.find? (fun p => p.1 = k)).isSome then
    m.map (fun p => if p.1 = k then (k, e) else p)
  else
    m ++ [(k, e)]

/-- `ApiCache.get(key)` at current wall-clock time `now`: returns the
stored value if present and unexpired; an expired entry is deleted and
counts a miss, as does an absent key.  Returns the JS result
(`null` = `none`) and the updated cache state. -/
def ApiCache.get {T : Type} (c : ApiCache T) (now : Nat) (key : String) :
    Option T × ApiCache T :=
  match mapGet c.cache key with
  | none => (none, { c with misses := c.misses + 1 })
  | some entry =>
    if entry.timestamp + entry.ttl < now then
      (none, { c with cache := mapDelete c.cache key, misses := c.misses + 1 })
    else
      (some entry.data, { c with hits := c.hits + 1 })

/-- `ApiCache.set(key, data, ttl?)` at time `now`: the effective ttl is
`ttl || this.defaultTtl` (so `undefined` and `0` both fall back). -/
def ApiCache.set {T : Type} (c : ApiCache T) (now : Nat) (key : String)
    (data : T) (ttl : Option Nat) : ApiCache T :=
  let actualTtl := jsOrNat ttl c.defaultTtl
  { c with cache := mapSet c.cache key { data := data, timestamp := now, ttl := actualTtl } }

/-- `ApiCache.delete(key)`. -/
def ApiCache.del {T : Type} (c : ApiCache T) (key : String) :
    Bool × ApiCache T :=
  ((mapGet c.cache key).isSome, { c with cache := mapDelete c.cache key })

/-! ## Metrics collector — `MetricsCollector` (src/client/metrics.ts)

JavaScript numbers are modelled as `Rat`; the `Infinity` initial value
of `minResponseTime` is modelled as `none`. -/

structure RequestMetrics where
  totalRequests : Nat
  successfulRequests : Nat
  failedRequests : Nat
  rateLimitHits : Nat
  avgResponseTime : Rat
  /-- `none` is the `Infinity` initial sentinel. -/
  minResponseTime : Option Rat
  maxResponseTime : Rat
  cacheHits : Nat
  lastRequestTime : Nat
  deriving Repr, DecidableEq

/-- The initial metrics record of the JS class. -/
def RequestMetrics.init : RequestMetrics :=
  { totalRequests := 0, successfulRequests := 0, failedRequests := 0
    rateLimitHits := 0, avgResponseTime := 0, minResponseTime := none
    maxResponseTime := 0, cacheHits := 0, lastRequestTime := 0 }

structure MetricsCollector where
  metrics : RequestMetrics
  responseTimes : List Rat
  deriving Repr, DecidableEq

def MetricsCollector.init : MetricsCollector :=
  { metrics := RequestMetrics.init, responseTimes := [] }

/-- `maxResponseTimeHistory` of the source. -/
def maxResponseTimeHistory : Nat := 100

/-- `Math.min` against the `Infinity` sentinel. -/
def mathMinInf (o : Option Rat) (d : Rat) : Option Rat :=
  match o with
  | none => some d
  | some m => some (min m d)

/-- `MetricsCollector.recordRequest(duration, success, fromCache)` at
wall-clock time `now` (used for `lastRequestTime`). -/
def MetricsCollector.recordRequest (m : MetricsCollector) (now : Nat)
    (duration : Rat) (success : Bool) (fromCache : Bool := false) :
    MetricsCollector :=
  let ms := { m.metrics with
    totalRequests := m.metrics.totalRequests + 1
    lastRequestTime := now }
  if fromCache then
    { m with metrics := { ms with cacheHits := ms.cacheHits + 1 } }
  else
    let ms := if success then
        { ms with successfulRequests := ms.successfulRequests + 1 }
      else
        { ms with failedRequests := ms.failedRequests + 1 }
    let times := m.responseTimes ++ [duration]
    let times := if maxResponseTimeHistory < times.length then times.drop 1 else times
    { metrics := { ms with
        minResponseTime := mathMinInf ms.minResponseTime duration
        maxResponseTime := max ms.maxResponseTime duration
        avgResponseTime := (times.foldl (· + ·) 0) / (times.length : Rat) }
      responseTimes := times }

/-- `MetricsCollector.recordRateLimit()`. -/
def MetricsCollector.recordRateLimit (m : MetricsCollector) : MetricsCollector :=
  { m with metrics := { m.metrics with rateLimitHits := m.metrics.rateLimitHits + 1 } }

/-- `MetricsCollector.getStats()` returns a copy of the record. -/
def MetricsCollector.getStats (m : MetricsCollector) : RequestMetrics :=
  m.metrics

/-! ## Rate limiter — `RateLimiter` (src/client/rateLimiter.ts) -/

inductive RLType where
  | read
  | write
  deriving Repr, DecidableEq

structure RLEntry where
  timestamp : Nat
  type : RLType
  deriving Repr, DecidableEq

structure RateLimiter where
  requests : List RLEntry
  deriving Repr, DecidableEq

def RateLimiter.init : RateLimiter := { requests := [] }

/-- The fixed 6-second window of `waitForSlot` and `getStats`. -/
def rlWindow : Nat := 6000

/-- `limits = { read: 100, write: 10 }`. -/
def rlLimits : RLType → Nat
  | .read => 100
  | .write => 10

/-- `now - req.timestamp < window`: the entry is inside the sliding
window at time `now` (truncated `Nat` subtraction agrees with the JS
comparison also for timestamps beyond `now`). -/
def rlInWindow (now : Nat) (e : RLEntry) : Bool :=
  now - e.timestamp < rlWindow

/-- `RateLimiter.waitForSlot(type)` entered at wall-clock time `now`:
prunes expired entries, computes the sleep amount (0 when under the
class limit, otherwise `window - (now - oldest matching timestamp)`)
and records the admission with the pre-sleep timestamp `now`, exactly
as the source does.  Returns the delay and the new state. -/
def RateLimiter.waitForSlot (s : RateLimiter) (t : RLType) (now : Nat) :
    Nat × RateLimiter :=
  let reqs := s.requests.filter (rlInWindow now)
  let typeRequests := reqs.filter (fun r => r.type = t)
  let wait :=
    if rlLimits t ≤ typeRequests.length then
      match typeRequests.head? with
      | some oldest => rlWindow - (now - oldest.timestamp)
      | none => 0
    else 0
  (wait, { requests := reqs ++ [{ timestamp := now, type := t }] })

structure RLStats where
  totalRequests : Nat
  recentRequests : Nat
  readRequests : Nat
  writeRequests : Nat
  deriving Repr, DecidableEq

/-- `RateLimiter.getStats()` read at wall-clock time `now`. -/
def RateLimiter.getStats (s : RateLimiter) (now : Nat) : RLStats :=
  let recent := s.requests.filter (rlInWindow now)
  { totalRequests := s.requests.length
    recentRequests := recent.length
    readRequests := (recent.filter (fun r => r.type = .read)).length
    writeRequests := (recent.filter (fun r => r.type = .write)).length }

/-! ## Error taxonomy (src/types)

`CodaRateLimitError extends CodaApiError` with message
"Rate limit exceeded" and statusCode 429; a transport exception is not
a `CodaApiError`.  `rateLimit` carries the parsed retry-after value,
`none` standing for NaN. -/

inductive CodaError where
  | api (message : String) (statusCode : Nat)
  | rateLimit (retryAfterVal : Option Nat)
  | network (message : String)
  deriving Repr, DecidableEq

/-- `error instanceof CodaApiError`. -/
def CodaError.isApiError : CodaError → Bool
  | .api _ _ => true
  | .rateLimit _ => true
  | .network _ => false

/-- `error.statusCode` (0 for a non-API transport error, where the JS
code would read `undefined` — never consulted on that branch). -/
def CodaError.statusCode : CodaError → Nat
  | .api _ s => s
  | .rateLimit _ => 429
  | .network _ => 0

/-! ## Request engine — `CodaClient.request` / `handleResponse`
(src/client/codaClient.ts) -/

/-- The JSON body of a transport response: the payload when read as the
success type, and the optional `message` field read on error
responses. -/
structure JsonBody (T : Type) where
  value : T
  message : Option String
  deriving Repr, DecidableEq

/-- One transport (`fetch`) response as the engine observes it:
status, status text, the two headers it reads, the result of
`response.json()` (`Except Unit` models a JSON parse rejection) and
`response.text()`. -/
structure TransportResponse (T : Type) where
  status : Nat
  statusText : String
  retryAfterHeader : Option String
  contentTypeHeader : Option String
  json : Except Unit (JsonBody T)
  text : String
  deriving Repr

/-- `Response.ok`: status in the range 200–299. -/
def respOk (status : Nat) : Bool :=
  200 ≤ status && status ≤ 299

/-- A successful engine result: a parsed JSON payload, or the raw text
returned (`as any`) for a non-JSON success response. -/
inductive RespValue (T : Type) where
  | json (v : T)
  | text (s : String)
  deriving Repr, DecidableEq

/-- `CodaClient.handleResponse(response)`: 429 throws
`CodaRateLimitError(parseInt(headers.get('retry-after') || '60'))`;
a non-ok response throws `CodaApiError(errorData.message || generic,
status)` where `errorData` is the parsed JSON body when the content
type declares JSON (a parse failure leaves `errorData = {}`); an ok
response returns the parsed JSON payload, or the raw text when the
content type is not JSON.  A JSON parse rejection on the ok path
propagates as a thrown non-API error. -/
def handleResponse {T : Type} (r : TransportResponse T) :
    Except CodaError (RespValue T) :=
  if r.status = 429 then
    .error (.rateLimit (jsParseInt (jsOrStr r.retryAfterHeader "60")))
  else
    let isJson : Bool :=
      match r.contentTypeHeader with
      | some ct => strIncludes ct "application/json"
      | none => false
    if respOk r.status then
      if isJson then
        match r.json with
        | .ok b => .ok (.json b.value)
        | .error _ => .error (.network "Invalid JSON")
      else
        .ok (.text r.text)
    else
      let errMessage : Option String :=
        if isJson then
          match r.json with
          | .ok b => b.message
          | .error _ => none
        else none
      .error (.api
        (jsOrStr errMessage
          ("Erreur HTTP " ++ toString r.status ++ ": " ++ r.statusText))
        r.status)

/-- Statuses the retry loop refuses to retry:
`[401, 403, 400, 422].includes(error.statusCode)`. -/
def noRetryStatuses : List Nat := [401, 403, 400, 422]

/-- The retry loop of `CodaClient.request`, with the transport as an
oracle from the attempt index to either a thrown transport exception
(`.error msg`) or a received response.  Returns the engine result and
the number of transport invocations.  `fuel` bounds the recursion and
is always at least `retries + 1 - attempt` at every call, so the
`fuel = 0` branch is unreachable. -/
def requestGo {T : Type} (transport : Nat → Except String (TransportResponse T))
    (retries : Nat) : Nat → Nat → Except CodaError (RespValue T) × Nat
  | 0, attempt => (.error (.network "fuel exhausted"), attempt)
  | fuel + 1, attempt =>
    let res : Except CodaError (RespValue T) :=
      match transport attempt with
      | .error msg => .error (.network msg)
      | .ok resp => handleResponse resp
    match res with
    | .ok v => (.ok v, attempt + 1)
    | .error e =>
      if e.isApiError && noRetryStatuses.contains e.statusCode then
        (.error e, attempt + 1)
      else if attempt < retries then
        requestGo transport retries fuel (attempt + 1)
      else
        (.error e, attempt + 1)

/-- One logical call through the retry loop: attempts `0..retries`
inclusive. -/
def requestRun {T : Type} (transport : Nat → Except String (TransportResponse T))
    (retries : Nat) : Except CodaError (RespValue T) × Nat :=
  requestGo transport retries (retries + 1) 0

/-- Query-parameter serialization of `request`: non-null/undefined
values are appended as `key=value` pairs (already string-coerced),
null/undefined values are omitted. -/
def buildUrl (baseUrl endpoint : String) (params : List (String × Option String)) :
    String :=
  let pairs := params.filterMap (fun p => p.2.map (fun v => p.1 ++ "=" ++ v))
  match pairs with
  | [] => baseUrl ++ endpoint
  | _ => baseUrl ++ endpoint ++ "?" ++ String.intercalate "&" pairs

/-! ## Client construction — `CodaClient.constructor`
(src/client/codaClient.ts) -/

/-- The recognized configuration options, each `Option` standing for a
possibly-undefined JS field. -/
structure ClientConfigJS where
  apiToken : Option String := none
  baseUrl : Option String := none
  timeout : Option Nat := none
  retries : Option Nat := none
  enableCache : Option Bool := none
  enableRateLimit : Option Bool := none
  enableMetrics : Option Bool := none
  cacheTtl : Option Nat := none
  deriving Repr

/-- `isValidTokenFormat`: length above 20 and, after stripping
separator dashes, only word characters (and at least one). -/
def isValidTokenFormat (token : String) : Bool :=
  let stripped := token.toList.filter (fun c => c ≠ '-')
  token.length > 20 &&
    (!stripped.isEmpty && stripped.all (fun c => c.isAlphanum || c = '_'))

/-- The constructed client state: resolved configuration plus the
governance subsystems (each present unless explicitly disabled with
`=== false`).  `V` is the payload type of cached values. -/
structure ClientState (V : Type) where
  apiToken : String
  baseUrl : String
  timeout : Nat
  retries : Nat
  rateLimiter : Option RateLimiter
  cache : Option (ApiCache V)
  metrics : Option MetricsCollector
  deriving Repr, DecidableEq

/-- `new CodaClient(cfg)` with the two environment fallbacks for the
token: resolves the token (`cfg.apiToken || env1 || env2 || ''`),
rejects an empty or badly-shaped token, then resolves every other
option with its falsy-fallback default and constructs the enabled
subsystems. -/
def CodaClient.init (V : Type) (cfg : ClientConfigJS)
    (envCodaApiToken envCodaToken : Option String) :
    Except CodaError (ClientState V) :=
  let apiToken := jsOrStr cfg.apiToken (jsOrStr envCodaApiToken (jsOrStr envCodaToken ""))
  if apiToken = "" then
    .error (.api "Token API Coda is required. Set CODA_API_TOKEN in your .env or pass it as a parameter." 401)
  else if !isValidTokenFormat apiToken then
    .error (.api "Token format invalid. Check your API token." 401)
  else
    .ok { apiToken := apiToken
          baseUrl := jsOrStr cfg.baseUrl "https://coda.io/apis/v1"
          timeout := jsOrNat cfg.timeout 30000
          retries := jsOrNat cfg.retries 3
          rateLimiter := if cfg.enableRateLimit ≠ some false then some RateLimiter.init else none
          cache := if cfg.enableCache ≠ some false then some (ApiCache.init V cfg.cacheTtl) else none
          metrics := if cfg.enableMetrics ≠ some false then some MetricsCollector.init else none }

/-- `CodaClient.request` as the source defines it: build the URL, run
the retry loop against the transport, and return the result.  The
method reads only the readonly configuration fields; it neither reads
nor writes the rate limiter, the cache, or the metrics collector, so
the client state comes back unchanged. -/
def CodaClient.request {V T : Type} (s : ClientState V) (endpoint : String)
    (params : List (String × Option String))
    (transport : String → Nat → Except String (TransportResponse T)) :
    (Except CodaError (RespValue T) × Nat) × ClientState V :=
  let url := buildUrl s.baseUrl endpoint params
  (requestRun (transport url) s.retries, s)

/-! ## Mutation poller — `CodaClient.waitForMutation`
(src/client/codaClient.ts) -/

inductive MStatus where
  | inProgress
  | complete
  | failed
  deriving Repr, DecidableEq

/-- The mutation-status payload returned by `getMutationStatus`. -/
structure MutationHandle where
  status : MStatus
  error : Option String := none
  deriving Repr, DecidableEq

/-- Loop body of `waitForMutation`, with the status oracle indexed by
the poll count (each poll is one `getMutationStatus` read through the
engine, idealized as instantaneous; elapsed time advances by the poll
interval per sleep).  The loop runs while `elapsed < maxWait`; a
non-terminal status sleeps `p` and polls again; exhaustion of the
deadline throws the 408 timeout error.  `fuel` bounds the recursion
and the `fuel = 0` guard returns the same timeout error; with
`fuel = maxWait + 1` and `p ≥ 1` the guard is unreachable. -/
def wfmGo (oracle : Nat → MutationHandle) (maxWait p : Nat) :
    Nat → Nat → Nat → Except CodaError (MutationHandle × Nat)
  | 0, _, _ =>
    .error (.api "Timeout en attendant la completion de la mutation" 408)
  | fuel + 1, elapsed, polls =>
    if elapsed < maxWait then
      let h := oracle polls
      if h.status = .complete || h.status = .failed then
        .ok (h, polls + 1)
      else
        wfmGo oracle maxWait p fuel (elapsed + p) (polls + 1)
    else
      .error (.api "Timeout en attendant la completion de la mutation" 408)

/-- `waitForMutation(requestId, options)`: `maxWaitTime` defaults to
30000 and `pollInterval` to 1000 through the JS falsy fallback.
Returns the terminal handle and the number of status queries, or the
408 timeout error. -/
def waitForMutation (oracle : Nat → MutationHandle)
    (optMaxWaitTime optPollInterval : Option Nat) :
    Except CodaError (MutationHandle × Nat) :=
  let maxWait := jsOrNat optMaxWaitTime 30000
  let p := jsOrNat optPollInterval 1000
  wfmGo oracle maxWait p (maxWait + 1) 0 0

/-! ## Pagination helper — `paginateAll` (src/helpers) -/

/-- One page of a listing response: `items` may be absent, and
`nextPageToken` continues the chain while truthy. -/
structure CodaPage (T : Type) where
  items : Option (List T)
  nextPageToken : Option String
  deriving Repr, DecidableEq

/-- The do-while loop of `paginateAll`, collecting yielded items and
counting fetcher calls.  The loop repeats while the returned
`nextPageToken` is truthy (present and non-empty).  `fuel` bounds the
number of follow-up pages; every theorem below instantiates it above
the length of the chain it examines. -/
def paginateGo {T : Type} (fetcher : Option String → CodaPage T) :
    Nat → Option String → List T × Nat
  | fuel, token =>
    let page := fetcher token
    let collected := match page.items with
      | some l => l
      | none => []
    match fuel, page.nextPageToken with
    | fuel' + 1, some t =>
      if t = "" then (collected, 1)
      else
        let rest := paginateGo fetcher fuel' (some t)
        (collected ++ rest.1, rest.2 + 1)
    | _, _ => (collected, 1)

/-- Full enumeration of `paginateAll(fetcher)` starting with no page
token, with fuel for up to 1000 chained pages. -/
def paginateAllRun {T : Type} (fetcher : Option String → CodaPage T) :
    List T × Nat :=
  paginateGo fetcher 1000 none

/-! ## Derived executions and concrete fixtures used by the theorems -/

/-- Record a sequence of non-cache requests (duration, success) in
order, at wall-clock time 0. -/
def recordMany (m : MetricsCollector) (ds : List (Rat × Bool)) : MetricsCollector :=
  ds.foldl (fun acc p => acc.recordRequest 0 p.1 p.2 false) m

/-- Admit a sequence of same-class calls at the given times, collecting
the delay each admission was told to sleep. -/
def admitSeqDelays (s : RateLimiter) (c : RLType) : List Nat → List Nat × RateLimiter
  | [] => ([], s)
  | t :: ts =>
    let r := s.waitForSlot c t
    let rest := admitSeqDelays r.2 c ts
    (r.1 :: rest.1, rest.2)

/-- Admit a mixed-class sequence of calls (class, time), keeping only
the final limiter state. -/
def admitAll (s : RateLimiter) (adms : List (RLType × Nat)) : RateLimiter :=
  adms.foldl (fun st p => (st.waitForSlot p.1 p.2).2) s

/-- The admission entry a `waitForSlot(c)` call at time `t` records. -/
def rlEntryOf (c : RLType) (t : Nat) : RLEntry :=
  { timestamp := t, type := c }

/-- The time of the most recent admission of a sequence (0 when none). -/
def lastAdmissionTime (adms : List (RLType × Nat)) : Nat :=
  (adms.map Prod.snd).getLastD 0

/-- The 408 timeout fault of `waitForMutation`. -/
def mutationTimeoutError : CodaError :=
  .api "Timeout en attendant la completion de la mutation" 408

/-- A token passing the constructor shape check. -/
def validTok : String := "test_token_1234567890abcdef"

/-- A configuration that explicitly sets retries, timeout and baseUrl
to their falsy zero values. -/
def cfgZeroes : ClientConfigJS :=
  { apiToken := some validTok, baseUrl := some "", timeout := some 0, retries := some 0 }

/-- A configuration leaving every governance flag at its default, so
cache, rate limiting and metrics are all enabled. -/
def cfgCacheOn : ClientConfigJS :=
  { apiToken := some validTok }

/-- The client state `new CodaClient(cfgCacheOn)` constructs. -/
def sCacheState : ClientState Nat :=
  { apiToken := validTok
    baseUrl := "https://coda.io/apis/v1"
    timeout := 30000
    retries := 3
    rateLimiter := some RateLimiter.init
    cache := some (ApiCache.init Nat none)
    metrics := some MetricsCollector.init }

/-- A 429 response without a retry-after header. -/
def resp429 : TransportResponse Nat :=
  { status := 429, statusText := "Too Many Requests"
    retryAfterHeader := none, contentTypeHeader := some "application/json"
    json := .ok { value := 0, message := some "Rate limit exceeded" }, text := "" }

/-- A successful JSON response with payload 7. -/
def resp200 : TransportResponse Nat :=
  { status := 200, statusText := "OK"
    retryAfterHeader := none, contentTypeHeader := some "application/json"
    json := .ok { value := 7, message := none }, text := "" }

/-- A 401 response with a server-provided message. -/
def resp401 : TransportResponse Nat :=
  { status := 401, statusText := "Unauthorized"
    retryAfterHeader := none, contentTypeHeader := some "application/json"
    json := .ok { value := 0, message := some "Invalid token" }, text := "" }

/-- A transport that always answers the successful JSON response. -/
def transport200 : String → Nat → Except String (TransportResponse Nat) :=
  fun _ _ => .ok resp200

/-- The status oracle producing inProgress, inProgress, complete. -/
def oracle3 : Nat → MutationHandle :=
  fun n => if n < 2 then { status := .inProgress } else { status := .complete }

/-- A status oracle that never reaches a terminal state. -/
def oracleStuck : Nat → MutationHandle :=
  fun _ => { status := .inProgress }

/-- A fetcher producing three token-chained pages of one item each. -/
def fetch3 : Option String → CodaPage Nat
  | none => { items := some [10], nextPageToken := some "t1" }
  | some "t1" => { items := some [20], nextPageToken := some "t2" }
  | some "t2" => { items := some [30], nextPageToken := none }
  | some _ => { items := none, nextPageToken := none }

/-- A fetcher producing a single page with no next-token. -/
def fetchSingle : Option String → CodaPage Nat :=
  fun _ => { items := some [5, 6], nextPageToken := none }

/-! # Theorems -/

/-! ## Association-list lemmas for the cache map -/

theorem find?_map_overwrite {T : Type} (m : List (String × CacheEntry T))
    (k : String) (e : CacheEntry T)
    (h : (m.find? (fun p => p.1 = k)).isSome) :
    (m.map (fun p => if p.1 = k then (k, e) else p)).find? (fun p => p.1 = k)
      = some (k, e) := by
  induction m with
  | nil => simp [List.find?] at h
  | cons a m ih =>
    by_cases ha : a.1 = k
    · simp [List.find?, ha]
    · have h' : (m.find? (fun p => p.1 = k)).isSome := by
        simpa [List.find?, ha] using h
      simpa [List.find?, ha] using ih h'

theorem find?_append_single {T : Type} (m : List (String × CacheEntry T))
    (k : String) (e : CacheEntry T)
    (h : m.find? (fun p => p.1 = k) = none) :
    (m ++ [(k, e)]).find? (fun p => p.1 = k) = some (k, e) := by
  induction m with
  | nil => simp [List.find?]
  | cons a m ih =>
    by_cases ha : a.1 = k
    · simp [List.find?, ha] at h
    · have h' : m.find? (fun p => p.1 = k) = none := by
        simpa [List.find?, ha] using h
      simpa [List.find?, ha] using ih h'

theorem mapGet_mapSet_self {T : Type} (m : List (String × CacheEntry T))
    (k : String) (e : CacheEntry T) :
    mapGet (mapSet m k e) k = some e := by
  unfold mapGet mapSet
  by_cases h : (m.find? (fun p => p.1 = k)).isSome
  · simp [h, find?_map_overwrite m k e h]
  · have hnone : m.find? (fun p => p.1 = k) = none := by
      cases hf : m.find? (fun p => p.1 = k) with
      | none => rfl
      | some q => rw [hf] at h; simp at h
    simp [hnone, find?_append_single m k e hnone]

theorem mapGet_mapDelete_self {T : Type} (m : List (String × CacheEntry T))
    (k : String) :
    mapGet (mapDelete m k) k = none := by
  unfold mapGet mapDelete
  rw [List.find?_eq_none.mpr]
  · rfl
  · intro x hx
    have hxne : x.1 ≠ k := by
      have := List.of_mem_filter hx
      simpa using this
    simp [hxne]

/-! ## C7 — cache set/get round trip and expiry -/

/-- C7, counterexample: the claim quantifies over every ttl `t`, but a
set with the falsy ttl 0 stores the default ttl (300000), so after
more than `t = 0` has elapsed (5 ms here) the value is still returned
instead of being absent and removed. -/
theorem cacheZeroTtl_c7_cex :
    (0 : Nat) + 0 < 5 ∧
    ((((ApiCache.init Nat none).set 0 "k" 42 (some 0)).get 5 "k").1 = some 42) := by
  exact ⟨by norm_num, by rfl⟩

/-- C7, amended: for every key `k`, value `v`, and positive ttl `t`
(the source replaces the falsy ttl 0 by the default ttl, so `t = 0` is
excluded), `set(k, v, t)` followed immediately by `get(k)` returns
`v`; once more than `t` has elapsed since the set, `get(k)` returns
absent and the entry is removed from the cache. -/
theorem cacheSetThenGet_c7 {T : Type} (c : ApiCache T) (now : Nat) (k : String)
    (v : T) (t : Nat) (ht : 0 < t) :
    ((((c.set now k v (some t)).get now k).1 = some v) ∧
     (∀ later, now + t < later →
       ((c.set now k v (some t)).get later k).1 = none ∧
       mapGet (((c.set now k v (some t)).get later k).2).cache k = none)) := by
  have htne : t ≠ 0 := Nat.pos_iff_ne_zero.mp ht
  have hset : (c.set now k v (some t)).cache
      = mapSet c.cache k { data := v, timestamp := now, ttl := t } := by
    simp [ApiCache.set, jsOrNat, htne]
  constructor
  · unfold ApiCache.get
    rw [hset, mapGet_mapSet_self]
    have : ¬ (now + t < now) := by omega
    simp [this]
  · intro later hlater
    unfold ApiCache.get
    rw [hset, mapGet_mapSet_self]
    simp [hlater, mapGet_mapDelete_self]

/-- C7 witness at a concrete input. -/
theorem cacheSetThenGet_c7_witness :
    ((((ApiCache.init Nat none).set 0 "k" 7 (some 10)).get 0 "k").1 = some 7) ∧
    ((((ApiCache.init Nat none).set 0 "k" 7 (some 10)).get 11 "k").1 = none) :=
  ⟨(cacheSetThenGet_c7 (ApiCache.init Nat none) 0 "k" 7 10 (by norm_num)).1,
   (((cacheSetThenGet_c7 (ApiCache.init Nat none) 0 "k" 7 10 (by norm_num)).2) 11
      (by norm_num)).1⟩

/-! ## C1 — how the engine treats a 429 response -/

theorem requestGo_allRateLimited (retries : Nat) :
    ∀ fuel attempt, attempt + fuel = retries + 1 → 1 ≤ fuel →
      requestGo (fun _ => .ok resp429) retries fuel attempt
        = (.error (.rateLimit (some 60)), retries + 1) := by
  intro fuel
  induction fuel with
  | zero => intro attempt _ h1; omega
  | succ fuel ih =>
    intro attempt hsum _
    have h429 : handleResponse resp429
        = Except.error (CodaError.rateLimit (some 60)) := by rfl
    have hcond : (CodaError.isApiError (.rateLimit (some 60))
        && noRetryStatuses.contains (CodaError.statusCode (.rateLimit (some 60)))) = false := by
      decide
    show requestGo (fun _ => .ok resp429) retries (fuel + 1) attempt = _
    rw [requestGo]
    simp only [h429, hcond, Bool.false_eq_true, if_false]
    by_cases hlt : attempt < retries
    · rw [if_pos hlt]
      exact ih (attempt + 1) (by omega) (by omega)
    · rw [if_neg hlt]
      have heq : attempt = retries := by omega
      rw [heq]

/-- C1: the claim says a 429 response is never retried by the engine's
own loop (transport invoked exactly once).  On the code, 429 falls
outside the `[401, 403, 400, 422]` no-retry list, so for every
configured retry count the transport is invoked `retries + 1` times
before the `CodaRateLimitError` finally surfaces; with the default
configuration (retries = 3) that is 4 invocations, not 1.  The fault
carried does default retry-after 60 when the header is absent, as the
repository's own jest test expects — but that test queues only a
single 429 response, so under the real retry behavior it can never
see the `CodaRateLimitError` it asserts. -/
theorem rateLimited429IsRetried_c1 :
    (∀ retries : Nat,
      requestRun (fun _ => .ok resp429) retries
        = (.error (.rateLimit (some 60)), retries + 1)) ∧
    requestRun (fun _ => .ok resp429) 3
      = (.error (.rateLimit (some 60)), 4) := by
  constructor
  · intro retries
    exact requestGo_allRateLimited retries (retries + 1) 0 (by omega) (by omega)
  · exact requestGo_allRateLimited 3 4 0 (by omega) (by omega)

/-! ## C3 — 400/401/403/422 are never retried -/

/-- C3: a transport response with status 400, 401, 403 or 422 makes
the engine raise the classified `CodaApiError` immediately: the
result is exactly the classification of that first response, and the
transport is invoked exactly once, regardless of the configured retry
count. -/
theorem clientErrorsNotRetried_c3 {T : Type} (retries : Nat)
    (transport : Nat → Except String (TransportResponse T))
    (resp : TransportResponse T)
    (h0 : transport 0 = .ok resp)
    (hs : resp.status = 400 ∨ resp.status = 401 ∨ resp.status = 403 ∨ resp.status = 422) :
    requestRun transport retries = (handleResponse resp, 1) ∧
    ∃ msg, handleResponse resp = .error (.api msg resp.status) := by
  have hnot429 : resp.status ≠ 429 := by rcases hs with h | h | h | h <;> omega
  have hnotok : respOk resp.status = false := by
    rcases hs with h | h | h | h <;> simp [respOk, h]
  have hh : ∃ msg, handleResponse resp = .error (.api msg resp.status) := by
    unfold handleResponse
    rw [if_neg hnot429]
    simp only [hnotok, Bool.false_eq_true, if_false]
    exact ⟨_, rfl⟩
  obtain ⟨msg, hmsg⟩ := hh
  constructor
  · unfold requestRun
    rw [requestGo]
    rw [h0]
    simp only [hmsg]
    have hcontains : (CodaError.isApiError (.api msg resp.status)
        && noRetryStatuses.contains (CodaError.statusCode (.api msg resp.status))) = true := by
      simp only [CodaError.isApiError, CodaError.statusCode, Bool.true_and,
        noRetryStatuses]
      rcases hs with h | h | h | h <;> simp [h]
    simp only [hcontains, if_true]
  · exact ⟨msg, hmsg⟩

/-- C3 witness: a 401 response with retries = 3 surfaces at once. -/
theorem clientErrorsNotRetried_c3_witness :
    requestRun (fun _ => .ok resp401) 3 = (handleResponse resp401, 1) ∧
    ∃ msg, handleResponse resp401 = .error (.api msg resp401.status) :=
  clientErrorsNotRetried_c3 3 (fun _ => .ok resp401) resp401 rfl
    (Or.inr (Or.inl rfl))

/-! ## C10 — falsy configuration values fall back to defaults -/

theorem jsOrNat_ne_zero (o : Option Nat) (d : Nat) (hd : d ≠ 0) :
    jsOrNat o d ≠ 0 := by
  cases o with
  | none => simpa [jsOrNat]
  | some n =>
    by_cases hn : n = 0 <;> simp [jsOrNat, hn, hd]

theorem jsOrStr_ne_empty (o : Option String) (d : String) (hd : d ≠ "") :
    jsOrStr o d ≠ "" := by
  cases o with
  | none => simpa [jsOrStr]
  | some s =>
    by_cases hsx : s = "" <;> simp [jsOrStr, hsx, hd]

/-- C10: constructing the client with explicitly configured
`retries = 0` and `timeout = 0` (and `baseUrl = ""`) yields an engine
with retries 3, timeout 30000 and the default base URL: every falsy
configured value is silently replaced by its default (`cfg.x || dflt`),
so no constructed client can have a zero retry count or a zero
per-attempt timeout; and the resulting engine really performs up to 3
retries (a persistently failing transport is invoked 4 times). -/
theorem falsyConfigDefaults_c10 :
    ((CodaClient.init Nat cfgZeroes none none).toOption.map
        (fun s => (s.retries, s.timeout, s.baseUrl)))
      = some (3, 30000, "https://coda.io/apis/v1") ∧
    (∀ (cfg : ClientConfigJS) (e1 e2 : Option String) (s : ClientState Nat),
        CodaClient.init Nat cfg e1 e2 = .ok s →
        s.retries ≠ 0 ∧ s.timeout ≠ 0 ∧ s.baseUrl ≠ "") ∧
    (requestRun (T := Nat) (fun _ => .error "connection refused") 3).2 = 4 := by
  refine ⟨by rfl, ?_, by rfl⟩
  intro cfg e1 e2 s h
  simp only [CodaClient.init] at h
  by_cases h1 : jsOrStr cfg.apiToken (jsOrStr e1 (jsOrStr e2 "")) = ""
  · rw [if_pos h1] at h
    exact Except.noConfusion h
  · rw [if_neg h1] at h
    by_cases h2 : isValidTokenFormat (jsOrStr cfg.apiToken (jsOrStr e1 (jsOrStr e2 ""))) = true
    · rw [if_neg (by simp [h2])] at h
      injection h with h3
      subst h3
      exact ⟨jsOrNat_ne_zero _ _ (by norm_num), jsOrNat_ne_zero _ _ (by norm_num),
        jsOrStr_ne_empty _ _ (by simp)⟩
    · have h2f : isValidTokenFormat (jsOrStr cfg.apiToken (jsOrStr e1 (jsOrStr e2 ""))) = false := by
        revert h2
        cases isValidTokenFormat (jsOrStr cfg.apiToken (jsOrStr e1 (jsOrStr e2 ""))) <;> simp
      rw [if_pos (by simp [h2f])] at h
      exact Except.noConfusion h

/-- C10 witness: the concrete zero-valued configuration. -/
theorem falsyConfigDefaults_c10_witness :
    sCacheState.retries ≠ 0 ∧ sCacheState.timeout ≠ 0 ∧ sCacheState.baseUrl ≠ "" :=
  falsyConfigDefaults_c10.2.1 cfgZeroes none none sCacheState (by rfl)

/-! ## C2 — the engine never consults the cache -/

/-- C2: the claim says that, with caching enabled, a repeat GET call
identical to a recently successful one is served from the cache with
no transport invocation and a cache hit recorded in metrics.  On the
code, `request` never reads or writes the cache or the metrics
collector at all: for any client state with a cache present, each of
two identical GET calls invokes the transport exactly once and
returns the entire client state — cache and metrics included —
unchanged. -/
theorem cacheNeverConsulted_c2 (s : ClientState Nat) (c : ApiCache Nat)
    (hc : s.cache = some c) :
    (CodaClient.request s "/whoami" [] transport200).2 = s ∧
    (CodaClient.request s "/whoami" [] transport200).1.2 = 1 ∧
    (CodaClient.request s "/whoami" [] transport200).1.1 = .ok (.json 7) ∧
    (CodaClient.request ((CodaClient.request s "/whoami" [] transport200).2)
        "/whoami" [] transport200).1.2 = 1 := by
  refine ⟨rfl, ?_, ?_, ?_⟩ <;> rfl

/-- C2 witness: the state the default configuration constructs. -/
theorem cacheNeverConsulted_c2_witness :
    (CodaClient.request sCacheState "/whoami" [] transport200).2 = sCacheState ∧
    (CodaClient.request sCacheState "/whoami" [] transport200).1.2 = 1 ∧
    (CodaClient.request sCacheState "/whoami" [] transport200).1.1 = .ok (.json 7) ∧
    (CodaClient.request ((CodaClient.request sCacheState "/whoami" [] transport200).2)
        "/whoami" [] transport200).1.2 = 1 :=
  cacheNeverConsulted_c2 sCacheState (ApiCache.init Nat none) rfl

/-! ## C8 — pagination helper -/

theorem paginateGo_stop {T : Type} (f : Option String → CodaPage T) (fuel : Nat)
    (tok : Option String) (h : (f tok).nextPageToken = none) :
    paginateGo f fuel tok = ((f tok).items.getD [], 1) := by
  rw [paginateGo.eq_2 f tok fuel
    (fun _ _ _ hsome => by rw [h] at hsome; cases hsome)]
  cases hi : (f tok).items <;> simp [hi]

theorem paginateGo_cont {T : Type} (f : Option String → CodaPage T) (fuel : Nat)
    (tok : Option String) (t : String)
    (hnext : (f tok).nextPageToken = some t) (ht : ¬ t = "") :
    paginateGo f (fuel + 1) tok
      = (((f tok).items.getD []) ++ (paginateGo f fuel (some t)).1,
         (paginateGo f fuel (some t)).2 + 1) := by
  rw [paginateGo.eq_1 f tok fuel t hnext, if_neg ht]
  cases hi : (f tok).items <;> simp [hi]

/-- C8: a fetcher producing three token-chained pages of one item each
yields exactly those three items in page order with exactly three
fetcher calls; a fetcher producing a single page with no next-token
yields that page's items with exactly one call. -/
theorem paginateThreePages_c8 :
    (∀ (T : Type) (f : Option String → CodaPage T) (x1 x2 x3 : T) (t1 t2 : String),
      t1 ≠ "" → t2 ≠ "" →
      f none = { items := some [x1], nextPageToken := some t1 } →
      f (some t1) = { items := some [x2], nextPageToken := some t2 } →
      f (some t2) = { items := some [x3], nextPageToken := none } →
      paginateAllRun f = ([x1, x2, x3], 3)) ∧
    (∀ (T : Type) (f : Option String → CodaPage T) (its : List T),
      f none = { items := some its, nextPageToken := none } →
      paginateAllRun f = (its, 1)) := by
  constructor
  · intro T f x1 x2 x3 t1 t2 ht1 ht2 h1 h2 h3
    unfold paginateAllRun
    rw [show (1000 : Nat) = 999 + 1 from rfl,
      paginateGo_cont f 999 none t1 (by simp [h1]) ht1]
    rw [show (999 : Nat) = 998 + 1 from rfl,
      paginateGo_cont f 998 (some t1) t2 (by simp [h2]) ht2]
    rw [paginateGo_stop f 998 (some t2) (by simp [h3])]
    simp [h1, h2, h3]
  · intro T f its h1
    unfold paginateAllRun
    rw [paginateGo_stop f 1000 none (by simp [h1])]
    simp [h1]

/-- C8 witness at the two concrete fetchers. -/
theorem paginateThreePages_c8_witness :
    paginateAllRun fetch3 = ([10, 20, 30], 3) ∧
    paginateAllRun fetchSingle = ([5, 6], 1) :=
  ⟨paginateThreePages_c8.1 Nat fetch3 10 20 30 "t1" "t2" (by decide) (by decide)
      rfl rfl rfl,
   paginateThreePages_c8.2 Nat fetchSingle [5, 6] rfl⟩

/-! ## C6 — mutation poller -/

theorem wfmGo_poll (o : Nat → MutationHandle) (maxWait p fuel elapsed polls : Nat)
    (he : elapsed < maxWait)
    (hnc : (o polls).status ≠ .complete) (hnf : (o polls).status ≠ .failed) :
    wfmGo o maxWait p (fuel + 1) elapsed polls
      = wfmGo o maxWait p fuel (elapsed + p) (polls + 1) := by
  rw [wfmGo, if_pos he, if_neg (by simp [hnc, hnf])]

theorem wfmGo_term (o : Nat → MutationHandle) (maxWait p fuel elapsed polls : Nat)
    (he : elapsed < maxWait)
    (ht : (o polls).status = .complete ∨ (o polls).status = .failed) :
    wfmGo o maxWait p (fuel + 1) elapsed polls = .ok (o polls, polls + 1) := by
  rcases ht with ht | ht <;>
    rw [wfmGo, if_pos he, if_pos (by simp [ht])]

theorem wfmGo_stuck (o : Nat → MutationHandle)
    (hstuck : ∀ n, (o n).status = .inProgress) :
    ∀ fuel maxWait p elapsed polls,
      wfmGo o maxWait p fuel elapsed polls = .error mutationTimeoutError := by
  intro fuel
  induction fuel with
  | zero => intro maxWait p elapsed polls; rw [wfmGo]; rfl
  | succ fuel ih =>
    intro maxWait p elapsed polls
    by_cases he : elapsed < maxWait
    · rw [wfmGo, if_pos he, if_neg (by simp [hstuck polls])]
      exact ih maxWait p (elapsed + p) (polls + 1)
    · rw [wfmGo, if_neg he]
      rfl

/-- C6: with the three-step status oracle inProgress, inProgress,
complete and any configuration whose effective maxWaitTime exceeds two
effective poll intervals, waitForMutation issues exactly 3 status
queries and returns the complete handle; and whenever the oracle never
reaches a terminal status, the poller raises the 408 timeout fault
once maxWaitTime elapses. -/
theorem mutationPolling_c6 :
    (∀ (optMax optPoll : Option Nat),
      2 * jsOrNat optPoll 1000 < jsOrNat optMax 30000 →
      waitForMutation oracle3 optMax optPoll
        = .ok ({ status := .complete }, 3)) ∧
    (∀ (oracle : Nat → MutationHandle) (optMax optPoll : Option Nat),
      (∀ n, (oracle n).status = .inProgress) →
      waitForMutation oracle optMax optPoll = .error mutationTimeoutError) := by
  constructor
  · intro optMax optPoll h2p
    have hp : 1 ≤ jsOrNat optPoll 1000 :=
      Nat.one_le_iff_ne_zero.mpr (jsOrNat_ne_zero _ _ (by norm_num))
    show wfmGo oracle3 (jsOrNat optMax 30000) (jsOrNat optPoll 1000)
        (jsOrNat optMax 30000 + 1) 0 0 = .ok ({ status := .complete }, 3)
    set p := jsOrNat optPoll 1000 with hpdef
    set m := jsOrNat optMax 30000 with hmdef
    obtain ⟨k, hk⟩ : ∃ k, m = k + 3 := ⟨m - 3, by omega⟩
    rw [hk]
    have s1 : wfmGo oracle3 (k + 3) p ((k + 3) + 1) 0 0
        = wfmGo oracle3 (k + 3) p (k + 3) (0 + p) 1 :=
      wfmGo_poll oracle3 (k + 3) p (k + 3) 0 0 (by omega) (by decide) (by decide)
    have s2 : wfmGo oracle3 (k + 3) p (k + 3) (0 + p) 1
        = wfmGo oracle3 (k + 3) p (k + 2) (0 + p + p) 2 :=
      wfmGo_poll oracle3 (k + 3) p (k + 2) (0 + p) 1 (by omega) (by decide) (by decide)
    have s3 : wfmGo oracle3 (k + 3) p (k + 2) (0 + p + p) 2
        = .ok (oracle3 2, 2 + 1) :=
      wfmGo_term oracle3 (k + 3) p (k + 1) (0 + p + p) 2 (by omega) (Or.inl (by decide))
    rw [s1, s2, s3]
    rfl
  · intro oracle optMax optPoll hstuck
    exact wfmGo_stuck oracle hstuck _ _ _ _ _

/-- C6 witness: default options for the three-step oracle, and the
never-terminal oracle. -/
theorem mutationPolling_c6_witness :
    waitForMutation oracle3 none none = .ok ({ status := .complete }, 3) ∧
    waitForMutation oracleStuck none none = .error mutationTimeoutError :=
  ⟨mutationPolling_c6.1 none none (by norm_num [jsOrNat]),
   mutationPolling_c6.2 oracleStuck none none (fun _ => rfl)⟩

/-! ## C4 — metrics response-time statistics -/

theorem recordRequest_step (m : MetricsCollector) (d : Rat) (b : Bool) :
    (m.recordRequest 0 d b false).responseTimes
        = (if maxResponseTimeHistory < (m.responseTimes ++ [d]).length
           then (m.responseTimes ++ [d]).drop 1 else m.responseTimes ++ [d]) ∧
    (m.recordRequest 0 d b false).metrics.minResponseTime
        = mathMinInf m.metrics.minResponseTime d ∧
    (m.recordRequest 0 d b false).metrics.maxResponseTime
        = max m.metrics.maxResponseTime d ∧
    (m.recordRequest 0 d b false).metrics.avgResponseTime
        = ((m.recordRequest 0 d b false).responseTimes.foldl (· + ·) 0)
          / ((m.recordRequest 0 d b false).responseTimes.length : Rat) := by
  cases b <;> simp [MetricsCollector.recordRequest]

theorem min?_concat {α : Type} [LinearOrder α] (l : List α) (d : α) :
    (l ++ [d]).min? = some (match l.min? with
      | none => d
      | some m => min m d) := by
  cases l with
  | nil => simp [List.min?_nil, List.min?_cons']
  | cons a t =>
    rw [List.cons_append, List.min?_cons', List.min?_cons', List.foldl_append]
    rfl

/-- C4, amended: after each `recordRequest(d, success, fromCache=false)`
call, the stored history is the most recent at-most-100 durations with
older durations evicted oldest-first, and `avgResponseTime` is the mean
strictly over that bounded history; but `minResponseTime` and
`maxResponseTime` are the running all-time extremes over every
duration recorded since construction or reset (min over the whole
sequence, max against the initial 0), not recomputed from the bounded
history. -/
theorem metricsBoundedHistory_c4 (ds : List (Rat × Bool)) :
    (recordMany MetricsCollector.init ds).responseTimes
        = (ds.map Prod.fst).drop ((ds.map Prod.fst).length - maxResponseTimeHistory) ∧
    (recordMany MetricsCollector.init ds).metrics.avgResponseTime
        = (((ds.map Prod.fst).drop
              ((ds.map Prod.fst).length - maxResponseTimeHistory)).foldl (· + ·) 0)
          / ((((ds.map Prod.fst).drop
              ((ds.map Prod.fst).length - maxResponseTimeHistory)).length : Nat) : Rat) ∧
    (recordMany MetricsCollector.init ds).metrics.minResponseTime
        = (ds.map Prod.fst).min? ∧
    (recordMany MetricsCollector.init ds).metrics.maxResponseTime
        = (ds.map Prod.fst).foldl max 0 := by
  induction ds using List.reverseRecOn with
  | nil =>
    refine ⟨rfl, ?_, rfl, rfl⟩
    simp [recordMany, MetricsCollector.init, RequestMetrics.init]
  | append_singleton ds p ih =>
    obtain ⟨ih1, ih2, ih3, ih4⟩ := ih
    have hrec : recordMany MetricsCollector.init (ds ++ [p])
        = (recordMany MetricsCollector.init ds).recordRequest 0 p.1 p.2 false := by
      simp [recordMany, List.foldl_append]
    obtain ⟨hs1, hsMin, hsMax, hsAvg⟩ :=
      recordRequest_step (recordMany MetricsCollector.init ds) p.1 p.2
    have hmap : (ds ++ [p]).map Prod.fst = ds.map Prod.fst ++ [p.1] := by simp
    have hlen : (ds.map Prod.fst).length = ds.length := List.length_map _ _
    -- the history conjunct
    have hresp : ((recordMany MetricsCollector.init ds).recordRequest 0 p.1 p.2
          false).responseTimes
        = (ds.map Prod.fst ++ [p.1]).drop
            ((ds.map Prod.fst ++ [p.1]).length - maxResponseTimeHistory) := by
      rw [hs1, ih1]
      have hcap : maxResponseTimeHistory = 100 := rfl
      by_cases hn : (ds.map Prod.fst).length < maxResponseTimeHistory
      · have h0 : (ds.map Prod.fst).length - maxResponseTimeHistory = 0 := by omega
        have h1 : (ds.map Prod.fst ++ [p.1]).length - maxResponseTimeHistory = 0 := by
          simp only [List.length_append, List.length_cons, List.length_nil]
          omega
        have h2 : ¬ (maxResponseTimeHistory
            < ((ds.map Prod.fst).drop ((ds.map Prod.fst).length
                - maxResponseTimeHistory) ++ [p.1]).length) := by
          simp only [List.length_append, List.length_drop, List.length_cons,
            List.length_nil]
          omega
        rw [if_neg h2, h0, h1]
        simp
      · have hge : maxResponseTimeHistory ≤ (ds.map Prod.fst).length := by omega
        have h2 : maxResponseTimeHistory
            < ((ds.map Prod.fst).drop ((ds.map Prod.fst).length
                - maxResponseTimeHistory) ++ [p.1]).length := by
          simp only [List.length_append, List.length_drop, List.length_cons,
            List.length_nil]
          omega
        rw [if_pos h2]
        have hd1 : (1 : Nat) ≤ ((ds.map Prod.fst).drop ((ds.map Prod.fst).length
            - maxResponseTimeHistory)).length := by
          simp only [List.length_drop]
          omega
        rw [List.drop_append_of_le_length hd1, List.drop_drop]
        have hd2 : (ds.map Prod.fst ++ [p.1]).length - maxResponseTimeHistory
            ≤ (ds.map Prod.fst).length := by
          simp only [List.length_append, List.length_cons, List.length_nil]
          omega
        rw [List.drop_append_of_le_length hd2]
        have hd3 : (ds.map Prod.fst).length - maxResponseTimeHistory + 1
            = (ds.map Prod.fst ++ [p.1]).length - maxResponseTimeHistory := by
          simp only [List.length_append, List.length_cons, List.length_nil]
          omega
        rw [hd3]
    refine ⟨?_, ?_, ?_, ?_⟩
    · rw [hrec, hmap]
      exact hresp
    · rw [hrec, hmap]
      rw [hsAvg, hresp]
    · rw [hrec, hmap]
      rw [hsMin, ih3, min?_concat]
      cases hmin : (ds.map Prod.fst).min? <;> simp [mathMinInf, hmin]
    · rw [hrec, hmap]
      rw [hsMax, ih4, List.foldl_append]
      simp

set_option maxRecDepth 100000 in
/-- C4, counterexample: record duration 1 and then 100 records of
duration 2.  The bounded history now holds exactly the 100 most
recent durations (all 2), so the claim requires
minResponseTime = 2, but the stored minResponseTime is still the
all-time 1, which was evicted from the history. -/
theorem metricsMinEvicted_c4_cex :
    (recordMany MetricsCollector.init
        ((1, true) :: List.replicate 100 ((2 : Rat), true))).responseTimes
        = List.replicate 100 (2 : Rat) ∧
    (recordMany MetricsCollector.init
        ((1, true) :: List.replicate 100 ((2 : Rat), true))).metrics.minResponseTime
        = some 1 ∧
    some (1 : Rat) ≠ some (2 : Rat) := by
  decide

/-! ## Rate limiter lemmas -/

theorem waitForSlot_fst (s : RateLimiter) (c : RLType) (now : Nat) :
    (s.waitForSlot c now).1
      = (if rlLimits c
            ≤ ((s.requests.filter (rlInWindow now)).filter (fun r => r.type = c)).length
         then
           match ((s.requests.filter (rlInWindow now)).filter
               (fun r => r.type = c)).head? with
           | some oldest => rlWindow - (now - oldest.timestamp)
           | none => 0
         else 0) := rfl

theorem waitForSlot_snd (s : RateLimiter) (c : RLType) (now : Nat) :
    (s.waitForSlot c now).2.requests
      = s.requests.filter (rlInWindow now) ++ [rlEntryOf c now] := rfl

theorem rlInWindow_mono {t1 t2 : Nat} (h : t1 ≤ t2) (e : RLEntry)
    (he : rlInWindow t2 e = true) : rlInWindow t1 e = true := by
  simp only [rlInWindow, decide_eq_true_eq] at he ⊢
  omega

theorem filter_inWindow_filter (l : List RLEntry) {t1 t2 : Nat} (h : t1 ≤ t2) :
    (l.filter (rlInWindow t1)).filter (rlInWindow t2) = l.filter (rlInWindow t2) := by
  induction l with
  | nil => rfl
  | cons a l ih =>
    by_cases h1 : rlInWindow t1 a = true
    · by_cases h2 : rlInWindow t2 a = true <;>
        simp [List.filter_cons, h1, h2, ih]
    · have h2 : rlInWindow t2 a = false := by
        cases hb : rlInWindow t2 a
        · rfl
        · exact absurd (rlInWindow_mono h a hb) h1
      simp [List.filter_cons, h1, h2, ih]

theorem waitForSlot_noDelay (s : RateLimiter) (c : RLType) (now : Nat)
    (h : s.requests.length < rlLimits c) :
    (s.waitForSlot c now).1 = 0 := by
  have h1 := List.length_filter_le (rlInWindow now) s.requests
  have h2 := List.length_filter_le (fun r => r.type = c)
    (s.requests.filter (rlInWindow now))
  rw [waitForSlot_fst, if_neg (by omega)]

theorem waitForSlot_len (s : RateLimiter) (c : RLType) (now : Nat) :
    (s.waitForSlot c now).2.requests.length ≤ s.requests.length + 1 := by
  rw [waitForSlot_snd]
  have := List.length_filter_le (rlInWindow now) s.requests
  simp only [List.length_append, List.length_cons, List.length_nil]
  omega

theorem admitSeqDelays_noDelay (c : RLType) :
    ∀ (ts : List Nat) (s : RateLimiter),
      s.requests.length + ts.length ≤ rlLimits c →
      (admitSeqDelays s c ts).1 = List.replicate ts.length 0 := by
  intro ts
  induction ts with
  | nil => intro s _; rfl
  | cons t ts ih =>
    intro s h
    have hfirst : (s.waitForSlot c t).1 = 0 := by
      apply waitForSlot_noDelay
      simp only [List.length_cons] at h
      omega
    have hlen := waitForSlot_len s c t
    have hrest := ih (s.waitForSlot c t).2 (by
      simp only [List.length_cons] at h ⊢
      omega)
    simp [admitSeqDelays, hfirst, hrest, List.replicate_succ]

theorem admitSeqDelays_requests (c : RLType) :
    ∀ (ts : List Nat) (s : RateLimiter),
      (∀ e ∈ s.requests, ∀ t ∈ ts, t - e.timestamp < rlWindow) →
      List.Pairwise (fun a b => b - a < rlWindow) ts →
      (admitSeqDelays s c ts).2.requests = s.requests ++ ts.map (rlEntryOf c) := by
  intro ts
  induction ts with
  | nil => intro s _ _; simp [admitSeqDelays]
  | cons t ts ih =>
    intro s hspread hpw
    have hfilter : s.requests.filter (rlInWindow t) = s.requests := by
      apply List.filter_eq_self.mpr
      intro e he
      have hx := hspread e he t (by simp)
      simp only [rlInWindow, decide_eq_true_eq]
      omega
    have hreq : (s.waitForSlot c t).2.requests = s.requests ++ [rlEntryOf c t] := by
      rw [waitForSlot_snd, hfilter]
    obtain ⟨hhead, htail⟩ := List.pairwise_cons.mp hpw
    have hih := ih (s.waitForSlot c t).2 (by
      intro e he t' ht'
      rw [hreq] at he
      rcases List.mem_append.mp he with he | he
      · exact hspread e he t' (by simp [ht'])
      · have : e = rlEntryOf c t := by simpa using he
        subst this
        exact hhead t' ht') htail
    show (admitSeqDelays (s.waitForSlot c t).2 c ts).2.requests = _
    rw [hih, hreq, List.append_assoc]
    rfl

theorem getLastD_mem (l : List Nat) (d : Nat) (h : l ≠ []) : l.getLastD d ∈ l := by
  induction l with
  | nil => simp at h
  | cons a l ih =>
    cases l with
    | nil => simp [List.getLastD]
    | cons b l' => simpa [List.getLastD] using ih (List.cons_ne_nil b l')

theorem admitAll_requests :
    ∀ (adms : List (RLType × Nat)),
      List.Pairwise (· ≤ ·) (adms.map Prod.snd) →
      (admitAll RateLimiter.init adms).requests
        = (adms.map (fun p => rlEntryOf p.1 p.2)).filter
            (rlInWindow (lastAdmissionTime adms)) := by
  intro adms
  induction adms using List.reverseRecOn with
  | nil => intro _; rfl
  | append_singleton adms p ih =>
    intro hpw
    have hmapsnd : (adms ++ [p]).map Prod.snd = adms.map Prod.snd ++ [p.2] := by simp
    rw [hmapsnd] at hpw
    obtain ⟨hpw1, _, hrel⟩ := List.pairwise_append.mp hpw
    have hstep : admitAll RateLimiter.init (adms ++ [p])
        = ((admitAll RateLimiter.init adms).waitForSlot p.1 p.2).2 := by
      simp [admitAll, List.foldl_append]
    have hlast : lastAdmissionTime (adms ++ [p]) = p.2 := by
      simp only [lastAdmissionTime, hmapsnd]
      exact List.getLastD_concat _ _ _
    have hprev : lastAdmissionTime adms ≤ p.2 := by
      rcases hemp : adms.map Prod.snd with _ | ⟨x, xs⟩
      · simp [lastAdmissionTime, hemp, List.getLastD]
      · have hmem : (adms.map Prod.snd).getLastD 0 ∈ adms.map Prod.snd := by
          rw [hemp]
          exact hemp ▸ getLastD_mem _ 0 (by simp [hemp])
        exact hrel _ hmem p.2 (by simp)
    rw [hstep, waitForSlot_snd, ih hpw1, hlast,
      filter_inWindow_filter _ hprev]
    have hkeep : (adms ++ [p]).map (fun q => rlEntryOf q.1 q.2)
        = adms.map (fun q => rlEntryOf q.1 q.2) ++ [rlEntryOf p.1 p.2] := by simp
    rw [hkeep, List.filter_append]
    have hself : [rlEntryOf p.1 p.2].filter (rlInWindow p.2)
        = [rlEntryOf p.1 p.2] := by
      simp [rlInWindow, rlEntryOf, rlWindow]
    rw [hself]

/-! ## C5 — rate limiter admission behavior -/

/-- C5: (a) from a fresh limiter, any sequence of at most limit-many
same-class admissions is admitted with zero delay at every step;
(b) after limit-many admissions of class `c` at nondecreasing times
all within the window of `now`, the next admission of class `c` at
`now` is delayed by exactly — hence by at least — window minus the age
of the oldest in-window admission of that class; (c) an interposed
admission of the other class never changes the delay a class-`c`
admission experiences. -/
theorem rateLimiterWindow_c5 :
    (∀ (c : RLType) (ts : List Nat), ts.length ≤ rlLimits c →
      (admitSeqDelays RateLimiter.init c ts).1 = List.replicate ts.length 0) ∧
    (∀ (c : RLType) (t0 : Nat) (rest : List Nat) (now : Nat),
      (t0 :: rest).length = rlLimits c →
      List.Pairwise (· ≤ ·) (t0 :: rest) →
      (∀ t ∈ t0 :: rest, t ≤ now) →
      now - t0 < rlWindow →
      rlWindow - (now - t0)
          ≤ ((admitSeqDelays RateLimiter.init c (t0 :: rest)).2.waitForSlot c now).1 ∧
      ((admitSeqDelays RateLimiter.init c (t0 :: rest)).2.waitForSlot c now).1
          = rlWindow - (now - t0)) ∧
    (∀ (s : RateLimiter) (c c' : RLType) (now now' : Nat), c ≠ c' → now ≤ now' →
      ((s.waitForSlot c' now).2.waitForSlot c now').1
        = (s.waitForSlot c now').1) := by
  refine ⟨?_, ?_, ?_⟩
  · intro c ts h
    exact admitSeqDelays_noDelay c ts RateLimiter.init
      (by simpa [RateLimiter.init] using h)
  · intro c t0 rest now hlen hpw hle hwin
    have ht0 : ∀ t ∈ t0 :: rest, t0 ≤ t := by
      intro t ht
      rcases List.mem_cons.mp ht with rfl | ht
      · exact le_refl t
      · exact (List.pairwise_cons.mp hpw).1 t ht
    have hpw' : List.Pairwise (fun a b => b - a < rlWindow) (t0 :: rest) := by
      refine List.Pairwise.imp_of_mem ?_ hpw
      intro a b ha hb hab
      have h1 := hle b hb
      have h2 := ht0 a ha
      omega
    have hreq : (admitSeqDelays RateLimiter.init c (t0 :: rest)).2.requests
        = (t0 :: rest).map (rlEntryOf c) := by
      have := admitSeqDelays_requests c (t0 :: rest) RateLimiter.init
        (by intro e he; simp [RateLimiter.init] at he) hpw'
      simpa [RateLimiter.init] using this
    have hwinall : ((t0 :: rest).map (rlEntryOf c)).filter (rlInWindow now)
        = (t0 :: rest).map (rlEntryOf c) := by
      apply List.filter_eq_self.mpr
      intro e he
      obtain ⟨t, ht, rfl⟩ := List.mem_map.mp he
      have h1 := ht0 t ht
      simp only [rlInWindow, rlEntryOf, decide_eq_true_eq]
      omega
    have htype : (((t0 :: rest).map (rlEntryOf c)).filter (fun r => r.type = c))
        = (t0 :: rest).map (rlEntryOf c) := by
      apply List.filter_eq_self.mpr
      intro e he
      obtain ⟨t, ht, rfl⟩ := List.mem_map.mp he
      simp [rlEntryOf]
    have heq : ((admitSeqDelays RateLimiter.init c (t0 :: rest)).2.waitForSlot c now).1
        = rlWindow - (now - t0) := by
      rw [waitForSlot_fst, hreq, hwinall, htype]
      rw [if_pos (by
        simp only [List.length_cons] at hlen
        simp only [List.length_map, List.length_cons]
        omega)]
      simp [rlEntryOf]
    exact ⟨le_of_eq heq.symm, heq⟩
  · intro s c c' now now' hcc hnow
    rw [waitForSlot_fst, waitForSlot_fst, waitForSlot_snd]
    have hkey : (((s.requests.filter (rlInWindow now) ++ [rlEntryOf c' now]).filter
          (rlInWindow now')).filter (fun r => r.type = c))
        = ((s.requests.filter (rlInWindow now')).filter (fun r => r.type = c)) := by
      rw [List.filter_append, List.filter_append, filter_inWindow_filter _ hnow]
      have hdrop : (([rlEntryOf c' now].filter (rlInWindow now')).filter
          (fun r => r.type = c)) = [] := by
        by_cases hw : rlInWindow now' (rlEntryOf c' now) = true <;>
          simp [List.filter_cons, hw, rlEntryOf, Ne.symm hcc, hcc]
      rw [hdrop, List.append_nil]
    rw [hkey]

/-- C5 witness: ten zero-delay write admissions from fresh state; the
eleventh write admission at time 100 waits 5900 = 6000 − 100; a write
admission at time 5 does not change the delay of a read admission at
time 7. -/
theorem rateLimiterWindow_c5_witness :
    (admitSeqDelays RateLimiter.init .write (List.replicate 10 0)).1
        = List.replicate 10 0 ∧
    ((admitSeqDelays RateLimiter.init .write
        (0 :: List.replicate 9 0)).2.waitForSlot .write 100).1 = 5900 ∧
    ((RateLimiter.init.waitForSlot .write 5).2.waitForSlot .read 7).1
        = (RateLimiter.init.waitForSlot .read 7).1 := by
  refine ⟨?_, ?_, ?_⟩
  · have h := rateLimiterWindow_c5.1 .write (List.replicate 10 0) (by decide)
    simpa using h
  · have h := (rateLimiterWindow_c5.2.1 .write 0 (List.replicate 9 0) 100
      (by decide) (by decide) (by decide) (by decide)).2
    simpa using h
  · exact rateLimiterWindow_c5.2.2 RateLimiter.init .read .write 5 7
      (by decide) (by decide)

/-! ## C9 — rate limiter statistics -/

/-- C9, counterexample: two admissions ever (at times 0 and 7000), but
the second `waitForSlot` prunes the expired first entry, so
`getStats` at time 7000 reports `totalRequests = 1`, not the 2 the
claim requires. -/
theorem rlStatsNotTotalEver_c9_cex :
    ((admitAll RateLimiter.init [(.read, 0), (.read, 7000)]).getStats
        7000).totalRequests = 1 ∧
    (1 : Nat) ≠ 2 := by
  decide

/-- C9, amended: for a time-ordered admission history read at a time
`now` no earlier than the last admission, `getStats().totalRequests`
is the number of admission entries still retained — those inside the
6-second window of the last admission's prune — and not the total
number of admissions ever recorded; the per-class fields do report
the per-class counts of retained admissions within the current
window. -/
theorem rlStatsRetained_c9 (adms : List (RLType × Nat)) (now : Nat)
    (hpw : List.Pairwise (· ≤ ·) (adms.map Prod.snd))
    (hnow : lastAdmissionTime adms ≤ now) :
    ((admitAll RateLimiter.init adms).getStats now).totalRequests
        = ((adms.map (fun p => rlEntryOf p.1 p.2)).filter
            (rlInWindow (lastAdmissionTime adms))).length ∧
    ((admitAll RateLimiter.init adms).getStats now).readRequests
        = (((adms.map (fun p => rlEntryOf p.1 p.2)).filter
            (rlInWindow now)).filter (fun r => r.type = .read)).length ∧
    ((admitAll RateLimiter.init adms).getStats now).writeRequests
        = (((adms.map (fun p => rlEntryOf p.1 p.2)).filter
            (rlInWindow now)).filter (fun r => r.type = .write)).length := by
  have hreq := admitAll_requests adms hpw
  refine ⟨?_, ?_, ?_⟩
  · simp [RateLimiter.getStats, hreq]
  · simp [RateLimiter.getStats, hreq, filter_inWindow_filter _ hnow]
  · simp [RateLimiter.getStats, hreq, filter_inWindow_filter _ hnow]

/-- C9 witness: the two-admission history of the counterexample. -/
theorem rlStatsRetained_c9_witness :
    ((admitAll RateLimiter.init [(.read, 0), (.read, 7000)]).getStats
        7000).totalRequests
      = (([(.read, 0), (.read, 7000)].map
          (fun p : RLType × Nat => rlEntryOf p.1 p.2)).filter
            (rlInWindow (lastAdmissionTime [(.read, 0), (.read, 7000)]))).length :=
  (rlStatsRetained_c9 [(.read, 0), (.read, 7000)] 7000 (by decide) (by decide)).1

end Coda
